import Mathlib

/-!
# Verification of the linalg-viz animation / scene-playback core

Shallow embedding of the Python sources of `linalg-viz`
(`linalg_viz/animation/animator.py`, `linalg_viz/animation/timeline.py`,
`linalg_viz/scene/scene.py`, `linalg_viz/scene/camera.py`,
`linalg_viz/core/vector.py`).  Python floats are modelled by exact
rationals `ℚ`; the claims under study are about exact control-flow and
arithmetic structure, not floating rounding.
-/

namespace LinalgViz

/-! ## Animation (`animator.py`, class `Animation`)

Fields `_duration`, `_elapsed`, `_finished`.  The easing function is kept
out of this base record because neither `update`, `progress` nor
`is_finished` consults it; value animations carry their easing separately
(see `VectorAnimation` below), mirroring how the source only reads
`self._easing` inside `eased_progress`. -/

structure Anim where
  duration : ℚ
  elapsed : ℚ
  finished : Bool
deriving DecidableEq, Repr

/-- `Animation.__init__`: elapsed 0, not finished. -/
def Anim.mk0 (d : ℚ) : Anim := ⟨d, 0, false⟩

/-- `Animation.progress`:
`min(1.0, self._elapsed / self._duration) if self._duration else 1.0`.
The Python truthiness test `if self._duration` is false exactly when the
duration is zero. -/
def Anim.progress (a : Anim) : ℚ :=
  if a.duration = 0 then 1 else min 1 (a.elapsed / a.duration)

/-- `Animation.is_finished`. -/
def Anim.is_finished (a : Anim) : Bool := a.finished

/-- `Animation.update(dt)`: no-op when finished, else accumulate `dt` and
clamp to the duration, setting the finished flag when `elapsed ≥ duration`. -/
def Anim.update (a : Anim) (dt : ℚ) : Anim :=
  if a.finished then a
  else
    let e := a.elapsed + dt
    if a.duration ≤ e then { a with elapsed := a.duration, finished := true }
    else { a with elapsed := e }

/-- `Animation.reset()`: back to elapsed 0, not finished, unconditionally. -/
def Anim.reset (a : Anim) : Anim := { a with elapsed := 0, finished := false }

/-! ## Timeline (`timeline.py`)

`Timeline._animations : Dict[float, List[Animation]]` is an
insertion-ordered dictionary; it is modelled as an association list of
buckets.  `_add_at` appends to an existing bucket for exactly-equal start
times, else appends a new bucket. -/

structure Timeline where
  animations : List (ℚ × List Anim)
  current_time : ℚ
  is_playing : Bool
  is_finished : Bool
deriving DecidableEq, Repr

/-- `Timeline.__init__`. -/
def Timeline.empty : Timeline := ⟨[], 0, false, false⟩

/-- `Timeline._add_at(time, animation)`. -/
def addAtBuckets : List (ℚ × List Anim) → ℚ → Anim → List (ℚ × List Anim)
  | [], t, a => [(t, [a])]
  | (t', l) :: rest, t, a =>
    if t' = t then (t', l ++ [a]) :: rest else (t', l) :: addAtBuckets rest t a

def Timeline.add_at (tl : Timeline) (t : ℚ) (a : Anim) : Timeline :=
  { tl with animations := addAtBuckets tl.animations t a }

/-- Inner `max(a.duration for a in anims)`; source buckets are never empty
(`_add_at` creates each bucket with one element), so the base value 0 is
never the result in reachable states. -/
def bucketMaxDuration (l : List Anim) : ℚ :=
  l.foldr (fun a m => max a.duration m) 0

/-- `Timeline.duration`: 0 when no animations are scheduled, else
`max(t + max(a.duration for a in anims))` over the buckets. -/
def Timeline.duration (tl : Timeline) : ℚ :=
  match tl.animations.map (fun p => p.1 + bucketMaxDuration p.2) with
  | [] => 0
  | x :: xs => xs.foldl max x

/-- `Timeline.play()`. -/
def Timeline.play (tl : Timeline) : Timeline :=
  { tl with is_playing := true, is_finished := false }

/-- `Timeline.pause()`. -/
def Timeline.pause (tl : Timeline) : Timeline :=
  { tl with is_playing := false }

/-- `Timeline.stop()`: playing false, playhead 0, finished false, every
scheduled animation reset. -/
def Timeline.stop (tl : Timeline) : Timeline :=
  { tl with is_playing := false
          , current_time := 0
          , is_finished := false
          , animations := tl.animations.map (fun p => (p.1, p.2.map Anim.reset)) }

/-- `Timeline.update(dt)`: no-op unless playing and not finished; advance
the playhead, then advance every eligible (`current_time ≥ start_time`),
not-yet-finished animation by the full `dt`; finally mark the timeline
finished when every animation is finished and the playhead has reached the
total duration. -/
def Timeline.update (tl : Timeline) (dt : ℚ) : Timeline :=
  if ¬tl.is_playing ∨ tl.is_finished then tl
  else
    let ct := tl.current_time + dt
    let buckets := tl.animations.map (fun p =>
      (p.1, p.2.map (fun a => if p.1 ≤ ct ∧ a.finished = false then a.update dt else a)))
    let allFinished := buckets.all (fun p => p.2.all (fun a => a.finished))
    let tl' := { tl with animations := buckets, current_time := ct }
    if allFinished ∧ tl'.duration ≤ ct then
      { tl' with is_finished := true, is_playing := false }
    else tl'

/-- `Timeline.get_active_animations()`: in bucket order, the animations
whose start time has been reached and which are not finished. -/
def Timeline.get_active_animations (tl : Timeline) : List Anim :=
  (tl.animations.map (fun p =>
    p.2.filter (fun a => decide (p.1 ≤ tl.current_time) && !a.finished))).flatten

/-- `Timeline.get_all_animations()`. -/
def Timeline.get_all_animations (tl : Timeline) : List Anim :=
  (tl.animations.map (fun p => p.2)).flatten

/-- First scheduled animation of a timeline (bucket order), used to state
the concrete single-animation scenarios. -/
def Timeline.firstAnim (tl : Timeline) : Anim :=
  tl.get_all_animations.headD (Anim.mk0 0)

/-- The C1 scenario: a played Timeline holding one animation of duration 1
scheduled at start time 2. -/
def c1Timeline : Timeline := (Timeline.empty.add_at 2 (Anim.mk0 1)).play

def c1AfterTwo : Timeline := (c1Timeline.update 1).update 1

def c1AfterThree : Timeline := c1AfterTwo.update 1

/-! ## Vector (`core/vector.py`)

`_components` and `_origin` are numpy float arrays, modelled as lists of
rationals; `_color` is an RGBA 4-tuple.  `_previous_state` holds
`self.copy()` — a fresh Vector carrying only components, origin and color —
so it is modelled as an optional `Snap`; `_pending_animation` (consumed by
`animate`) stores the start snapshot together with the duration, the end
state being the vector itself; `_scene` is a back-pointer whose only
observable content here is whether it is set. -/

structure Snap where
  components : List ℚ
  origin : List ℚ
  color : ℚ × ℚ × ℚ × ℚ
deriving DecidableEq, Repr

structure Vector where
  components : List ℚ
  origin : List ℚ
  color : ℚ × ℚ × ℚ × ℚ
  pendingAnimation : Option (Snap × ℚ)
  previousState : Option Snap
  sceneAttached : Bool
deriving DecidableEq, Repr

/-- `self._dim = len(components)`. -/
def Vector.dim (v : Vector) : Nat := v.components.length

/-- Default `self._color = (1.0, 0.3, 0.3, 1.0)`. -/
def defaultColor : ℚ × ℚ × ℚ × ℚ := (1, 3/10, 3/10, 1)

def zeros (n : Nat) : List ℚ := List.replicate n 0

/-- `Vector.__init__`: raises unless there are 2 or 3 components; the
origin defaults to the zero point of matching arity when absent (Python
truthiness: `np.array(origin) if origin else np.zeros(dim)`); no previous
state, no pending animation, no scene. -/
def mkVector (cs : List ℚ) (origin : Option (List ℚ)) : Except String Vector :=
  if cs.length = 2 ∨ cs.length = 3 then
    Except.ok
      { components := cs
        origin :=
          match origin with
          | some o => if o.isEmpty then zeros cs.length else o
          | none => zeros cs.length
        color := defaultColor
        pendingAnimation := none
        previousState := none
        sceneAttached := false }
  else Except.error ("Vector must have 2 or 3 components")

/-- `Vector.copy()`: a value snapshot of components, origin and color. -/
def Vector.snap (v : Vector) : Snap := ⟨v.components, v.origin, v.color⟩

/-- Shared tail of the derived-vector constructors:
`result._color = self._color; result._previous_state = self.copy();
result._scene = self._scene`. -/
def withDerived (v : Vector) (r : Vector) : Vector :=
  { r with color := v.color, previousState := some v.snap,
           sceneAttached := v.sceneAttached }

/-- `Vector.add`: dimension guard, componentwise sum, origin carried from
the left operand. -/
def Vector.add (v w : Vector) : Except String Vector :=
  if v.dim ≠ w.dim then Except.error ("Cannot add vectors of different dimensions")
  else (mkVector (List.zipWith (· + ·) v.components w.components)
          (some v.origin)).map (withDerived v)

/-- `Vector.subtract`. -/
def Vector.subtract (v w : Vector) : Except String Vector :=
  if v.dim ≠ w.dim then Except.error ("Cannot subtract vectors of different dimensions")
  else (mkVector (List.zipWith (· - ·) v.components w.components)
          (some v.origin)).map (withDerived v)

/-- `Vector.dot`. -/
def Vector.dot (v w : Vector) : Except String ℚ :=
  if v.dim ≠ w.dim then Except.error ("Cannot dot vectors of different dimensions")
  else Except.ok (List.zipWith (· * ·) v.components w.components).sum

/-- `Vector.project_onto`: dimension guard, then the epsilon-guarded
degenerate branch (`other_mag_sq < 1e-10` returns the zero vector built by
the plain constructor), else the scalar projection onto `other`. -/
def Vector.project_onto (v w : Vector) : Except String Vector :=
  if v.dim ≠ w.dim then Except.error ("Cannot project vectors of different dimensions")
  else
    let omsq := (List.zipWith (· * ·) w.components w.components).sum
    if omsq < 1/10^10 then mkVector (zeros v.dim) none
    else
      let scalar := (List.zipWith (· * ·) v.components w.components).sum / omsq
      (mkVector (w.components.map (fun c => scalar * c)) (some v.origin)).map
        (withDerived v)

/-- `Vector.angle_with`: dimension guard; on success the source returns
`arccos` of a cosine clipped to `[-1, 1]` with an epsilon-padded
denominator — a total real-valued computation with no further failure
path, modelled as `Unit` because it is transcendental (sqrt/arccos). -/
def Vector.angle_with (v w : Vector) : Except String Unit :=
  if v.dim ≠ w.dim then
    Except.error ("Cannot compute angle between vectors of different dimensions")
  else Except.ok ()

/-- `Vector.animate(duration)`: only a vector holding a previous state
records a pending `VectorAnimation(previous_state, self, duration)`;
otherwise the call changes nothing.  Either way it returns `self`. -/
def Vector.animate (v : Vector) (duration : ℚ) : Vector :=
  match v.previousState with
  | none => v
  | some p => { v with pendingAnimation := some (p, duration) }

/-- Success tester for the `Except`-modelled fallible operations. -/
def exceptOk {α : Type} : Except String α → Bool
  | Except.ok _ => true
  | Except.error _ => false

/-- Well-formedness established by the constructor: 2 or 3 components. -/
def Vector.wf (v : Vector) : Prop := v.dim = 2 ∨ v.dim = 3

instance (v : Vector) : Decidable v.wf := by
  unfold Vector.wf; infer_instance

/-! ## VectorAnimation (`animator.py`, class `VectorAnimation`)

Extends the base animation with the start and end vector states and the
easing function (`self._easing`, consulted only by `eased_progress`). -/

structure VectorAnimation where
  toAnim : Anim
  startV : Snap
  endV : Snap
  easing : ℚ → ℚ

/-- `VectorAnimation.__init__(start, end, duration)`. -/
def VectorAnimation.mk0 (s e : Snap) (d : ℚ) (f : ℚ → ℚ) : VectorAnimation :=
  ⟨Anim.mk0 d, s, e, f⟩

/-- Inherited `Animation.update`. -/
def VectorAnimation.update (va : VectorAnimation) (dt : ℚ) : VectorAnimation :=
  { va with toAnim := va.toAnim.update dt }

/-- `Animation.eased_progress`: `self._easing(self.progress)`. -/
def VectorAnimation.eased_progress (va : VectorAnimation) : ℚ :=
  va.easing va.toAnim.progress

/-- `VectorAnimation.get_value()`: componentwise
`start + t * (end - start)` on the components and on the origins, with
`t = eased_progress`, recomputed from the current elapsed time. -/
def VectorAnimation.get_value (va : VectorAnimation) : List ℚ × List ℚ :=
  let t := va.eased_progress
  (List.zipWith (fun s e => s + t * (e - s)) va.startV.components va.endV.components,
   List.zipWith (fun s e => s + t * (e - s)) va.startV.origin va.endV.origin)

/-! ## Scene with shared animation objects (`scene.py`)

`Scene._update` advances one `Timeline` and a live animation list that
hold *references* to animation objects; one object may be reachable from
both.  Sharing is made explicit with a store of animations indexed by
position; the timeline buckets and the live list hold indices. -/

structure SceneSt where
  store : List Anim
  tlBuckets : List (ℚ × List Nat)
  tlCurrent : ℚ
  tlPlaying : Bool
  tlFinished : Bool
  live : List Nat
  paused : Bool
deriving DecidableEq, Repr

/-- In-place update of the store entry at index `i`. -/
def storeModify (st : List Anim) (i : Nat) (f : Anim → Anim) : List Anim :=
  match st, i with
  | [], _ => []
  | a :: rest, 0 => f a :: rest
  | a :: rest, Nat.succ n => a :: storeModify rest n f

def storeGet (st : List Anim) (i : Nat) : Anim := st.getD i (Anim.mk0 0)

/-- Timeline total duration, on the indexed representation. -/
def sceneTlDuration (store : List Anim) (buckets : List (ℚ × List Nat)) : ℚ :=
  match buckets.map (fun p =>
      p.1 + (p.2.foldr (fun i m => max (storeGet store i).duration m) 0)) with
  | [] => 0
  | x :: xs => xs.foldl max x

/-- The store traversal of `Timeline.update(dt)` inside a Scene tick:
sequentially, bucket by bucket and index by index, each eligible
unfinished animation object is advanced by `dt` (an object scheduled
twice is visited twice, exactly as the source's nested loop visits each
reference). -/
def tlAdvanceStore (buckets : List (ℚ × List Nat)) (ct dt : ℚ)
    (st : List Anim) : List Anim :=
  buckets.foldl (fun st p =>
    p.2.foldl (fun st i =>
      if p.1 ≤ ct ∧ (storeGet st i).finished = false
      then storeModify st i (fun a => a.update dt) else st) st) st

/-- `Timeline.update(dt)` as executed inside a Scene tick, acting on the
shared store. -/
def sceneTimelineUpdate (s : SceneSt) (dt : ℚ) : SceneSt :=
  if ¬s.tlPlaying ∨ s.tlFinished then s
  else
    let ct := s.tlCurrent + dt
    let store' := tlAdvanceStore s.tlBuckets ct dt s.store
    let allFinished := s.tlBuckets.all (fun p =>
      p.2.all (fun i => (storeGet store' i).finished))
    if allFinished ∧ sceneTlDuration store' s.tlBuckets ≤ ct then
      { s with store := store', tlCurrent := ct,
               tlFinished := true, tlPlaying := false }
    else { s with store := store', tlCurrent := ct }

/-- `Scene._update(dt)`: return unchanged when paused; else advance the
Timeline, then advance every animation of the live list by the same `dt`,
collecting those that end the loop finished; finally remove each collected
occurrence from the live list (Python `list.remove`: first occurrence). -/
def sceneUpdate (s : SceneSt) (dt : ℚ) : SceneSt :=
  if s.paused then s
  else
    let s1 := sceneTimelineUpdate s dt
    let step := s1.live.foldl (fun acc i =>
      let st' := storeModify acc.1 i (fun a => a.update dt)
      (st', if (storeGet st' i).finished then acc.2 ++ [i] else acc.2))
      (s1.store, ([] : List Nat))
    let live' := step.2.foldl (fun l i => l.erase i) s1.live
    { s1 with store := step.1, live := live' }

/-! ## Scene object admission (`Scene.add`) and Vector equality

`Scene.add` appends each object not already in `self._objects` and sets
its `_scene` back-pointer; Python's `in` tests the existing elements with
`Vector.__eq__`, which is `np.allclose(self._components, other._components)`
— components only, origins and colors ignored, with absolute tolerance
`1e-8` and relative tolerance `1e-5` scaled by the right operand.
(`np.allclose` is only defined on matching shapes; the equal-length case,
the only one the claims exercise, is modelled.) -/

def npIsClose (x y : ℚ) : Bool := |x - y| ≤ 1/10^8 + (1/10^5) * |y|

/-- `Vector.__eq__` (element `w` compared against candidate `v`). -/
def vecEq (w v : Vector) : Bool :=
  decide (w.components.length = v.components.length) &&
    (w.components.zip v.components).all (fun p => npIsClose p.1 p.2)

def sceneContains (objs : List Vector) (v : Vector) : Bool :=
  objs.any (fun w => vecEq w v)

/-- `Scene.add(obj)` for one object: no-op when an existing object is
`__eq__`-equal, else append and set the `_scene` back-pointer (the list
element and the returned object are the same, now-attached object). -/
def sceneAdd (objs : List Vector) (v : Vector) : List Vector × Vector :=
  if sceneContains objs v then (objs, v)
  else
    let v' := { v with sceneAttached := true }
    (objs ++ [v'], v')

/-! ## Camera2D (`camera.py`)

`_position`, `_zoom`, `_rotation`, viewport `_width`/`_height`.  The
source calls `math.cos`/`math.sin` on the rotation angle; since cosine and
sine of a nonzero rational angle are irrational, the model carries the two
trig values `rotc = cos(rotation)` and `rots = sin(rotation)` as fields,
constrained in the theorems by the Pythagorean identity — everything the
round-trip property uses about them.  `world_to_screen` needs
`cos(-rotation) = rotc` and `sin(-rotation) = -rots`. -/

structure Camera2D where
  width : ℚ
  height : ℚ
  posx : ℚ
  posy : ℚ
  zoom : ℚ
  rotation : ℚ
  rotc : ℚ
  rots : ℚ
deriving DecidableEq, Repr

/-- `Camera2D.world_to_screen(x, y)`: rotate by `-rotation` when the
rotation is nonzero, then scale-and-translate into screen space with the
vertical axis flipped. -/
def Camera2D.world_to_screen (cam : Camera2D) (x y : ℚ) : ℚ × ℚ :=
  let p :=
    if cam.rotation ≠ 0 then
      let c := cam.rotc
      let s := -cam.rots
      (x * c - y * s, x * s + y * c)
    else (x, y)
  ((p.1 - cam.posx) * cam.zoom + cam.width / 2,
   -(p.2 - cam.posy) * cam.zoom + cam.height / 2)

/-- `Camera2D.screen_to_world(screen_x, screen_y)`: undo the translation
and scaling, then rotate by `+rotation` when the rotation is nonzero. -/
def Camera2D.screen_to_world (cam : Camera2D) (sx sy : ℚ) : ℚ × ℚ :=
  let x := (sx - cam.width / 2) / cam.zoom + cam.posx
  let y := -(sy - cam.height / 2) / cam.zoom + cam.posy
  if cam.rotation ≠ 0 then
    let c := cam.rotc
    let s := cam.rots
    (x * c - y * s, x * s + y * c)
  else (x, y)

/-! ## Derived run/state definitions used by the claims -/

/-- Drive a timeline by a sequence of `update(dt)` calls, recording the
`get_active_animations()` answer after each call. -/
def Timeline.runActive (tl : Timeline) : List ℚ → List (List Anim)
  | [] => []
  | dt :: rest =>
    let tl' := tl.update dt
    tl'.get_active_animations :: tl'.runActive rest

/-- A schedule with every animation put back in its idle state. -/
def resetSched (sched : List (ℚ × List Anim)) : List (ℚ × List Anim) :=
  sched.map (fun p => (p.1, p.2.map Anim.reset))

/-- A freshly constructed Timeline carrying a given schedule. -/
def Timeline.freshWith (sched : List (ℚ × List Anim)) : Timeline :=
  ⟨sched, 0, false, false⟩

/-- C2 scenario: one animation of duration 10 that is simultaneously
scheduled at time 0 on the playing Timeline and present in the live list. -/
def c2Scene : SceneSt :=
  { store := [⟨10, 0, false⟩]
    tlBuckets := [(0, [0])]
    tlCurrent := 0
    tlPlaying := true
    tlFinished := false
    live := [0]
    paused := false }

/-- C9 scenario objects: `c9w` already sits in the scene; `c9u` is
`allclose` to it, `c9v` is `allclose` to `c9u` but not to `c9w`
(`np.allclose` is not transitive). -/
def c9w : Vector := ⟨[0, 0], [0, 0], defaultColor, none, none, false⟩

def c9u : Vector := ⟨[1/10^8, 0], [0, 0], defaultColor, none, none, false⟩

def c9v : Vector := ⟨[2/10^8, 0], [1, 1], defaultColor, none, none, false⟩

/-- C8 witness camera: pan (7, -3), zoom 50, a nonzero rotation whose
cosine and sine are the rational circle point (3/5, 4/5). -/
def c8Cam : Camera2D := ⟨800, 600, 7, -3, 50, 1, 3/5, 4/5⟩

/-- C2 witness scene: one live animation of duration 10 that is not
scheduled anywhere on the Timeline. -/
def c2SceneW : SceneSt := ⟨[⟨10, 0, false⟩], [], 0, true, false, [0], false⟩

/-! ## Theorems -/

/-- C1, counterexample.  In the scenario (one animation of duration 1
scheduled at start time 2, timeline played), after two `update(dt=1.0)`
calls the playhead is 2.0 and the animation has just become eligible — but
its elapsed time is not 0: `Timeline.update` advances the playhead first
and then feeds the full `dt` to every animation whose start time the new
playhead has reached, so the animation receives `elapsed = 1.0` on its
first eligible tick (and, its duration being 1.0, is already finished). -/
theorem c1_elapsed_not_zero_after_two_updates :
    c1AfterTwo.firstAnim.elapsed ≠ 0 := by
  norm_num [c1AfterTwo, c1Timeline, Timeline.empty, Timeline.add_at, addAtBuckets,
    Timeline.play, Timeline.update, Timeline.duration, bucketMaxDuration,
    Anim.update, Anim.mk0, Timeline.get_all_animations, Timeline.firstAnim]

/-- C1, amended.  After two `update(dt=1.0)` calls (playhead 2.0) the
animation has become eligible and has received the full `dt` of that tick,
so its elapsed time is 1.0 — equal to its duration, hence it is already
finished — while the Timeline itself is not yet finished (playhead 2.0 <
total duration 3.0); after the third call (playhead 3.0) the Timeline's
`is_finished` is true and the animation still sits exactly at
`elapsed = duration = 1.0`.  `dt` is applied whole at the first eligible
tick, never pro-rated against the late start. -/
theorem c1_amended_scenario :
    c1AfterTwo.firstAnim = ⟨1, 1, true⟩ ∧
    c1AfterTwo.is_finished = false ∧
    c1AfterThree.firstAnim = ⟨1, 1, true⟩ ∧
    c1AfterThree.is_finished = true := by
  norm_num [c1AfterThree, c1AfterTwo, c1Timeline, Timeline.empty, Timeline.add_at,
    addAtBuckets, Timeline.play, Timeline.update, Timeline.duration,
    bucketMaxDuration, Anim.update, Anim.mk0, Timeline.get_all_animations,
    Timeline.firstAnim]

/-- C3.  For every duration `d > 0`, a single `update(d)` on a fresh
animation makes `progress` exactly 1 and `is_finished` true, and any
further `update(dt)` leaves the whole animation state unchanged (update is
a no-op once finished).  Neither `update` nor `progress` consults the
easing function, so the property holds for every easing. -/
theorem c3_update_full_duration_finishes (d : ℚ) (hd : 0 < d) :
    ((Anim.mk0 d).update d).progress = 1 ∧
    ((Anim.mk0 d).update d).is_finished = true ∧
    ∀ dt : ℚ, ((Anim.mk0 d).update d).update dt = (Anim.mk0 d).update d := by
  have hne : d ≠ 0 := ne_of_gt hd
  have hupd : (Anim.mk0 d).update d = ⟨d, d, true⟩ := by
    simp [Anim.mk0, Anim.update]
  refine ⟨?_, ?_, ?_⟩
  · rw [hupd]
    simp [Anim.progress, hne, div_self hne]
  · rw [hupd]
    rfl
  · intro dt
    rw [hupd]
    simp [Anim.update]

/-- C3, witness at `d = 1`, `dt = 5`. -/
theorem c3_witness :
    (0 : ℚ) < 1 ∧
    ((Anim.mk0 1).update 1).progress = 1 ∧
    ((Anim.mk0 1).update 1).is_finished = true ∧
    ((Anim.mk0 1).update 1).update 5 = (Anim.mk0 1).update 1 :=
  ⟨by norm_num,
   (c3_update_full_duration_finishes 1 (by norm_num)).1,
   (c3_update_full_duration_finishes 1 (by norm_num)).2.1,
   (c3_update_full_duration_finishes 1 (by norm_num)).2.2 5⟩

/-- C6.  For `0 ≤ elapsed ≤ duration`: when the duration is positive,
`progress` is exactly `elapsed / duration` (the saturation `min 1 ·` never
bites because the quotient is at most 1, and `progress ≤ 1` always holds);
when the duration is 0 the truthiness guard short-circuits to 1 and the
division is never performed. -/
theorem c6_progress_no_div_by_zero (a : Anim)
    (h0 : 0 ≤ a.elapsed) (h1 : a.elapsed ≤ a.duration) :
    (0 < a.duration → a.progress = a.elapsed / a.duration) ∧
    (a.duration = 0 → a.progress = 1) ∧
    a.progress ≤ 1 := by
  refine ⟨?_, ?_, ?_⟩
  · intro hd
    rw [Anim.progress, if_neg (ne_of_gt hd)]
    exact min_eq_right ((div_le_one hd).mpr h1)
  · intro hd
    rw [Anim.progress, if_pos hd]
  · rw [Anim.progress]
    split
    · exact le_refl 1
    · exact min_le_left 1 _

/-- C6, witness at `elapsed = 1`, `duration = 4`. -/
theorem c6_witness :
    (0 : ℚ) ≤ 1 ∧ (1 : ℚ) ≤ 4 ∧
    ((0 < (4 : ℚ) → Anim.progress ⟨4, 1, false⟩ = 1 / 4) ∧
     ((4 : ℚ) = 0 → Anim.progress ⟨4, 1, false⟩ = 1) ∧
     Anim.progress ⟨4, 1, false⟩ ≤ 1) :=
  ⟨by norm_num, by norm_num,
   c6_progress_no_div_by_zero ⟨4, 1, false⟩ (by norm_num) (by norm_num)⟩

/-- C5.  `stop()` puts a Timeline into exactly the state of a freshly
constructed Timeline carrying the same schedule with every animation reset
to Idle — playhead 0, playing false, finished false — so after `play()`
both are driven by any `update(dt)` sequence to the identical sequence of
`get_active_animations()` results (same animations, same finished flags);
`Timeline.update` is a pure function of the state, so the run is
deterministic. -/
theorem c5_stop_play_equals_fresh_run (tl : Timeline) (dts : List ℚ) :
    (tl.stop.play.runActive dts =
      ((Timeline.freshWith (resetSched tl.animations)).play).runActive dts) ∧
    tl.stop.current_time = 0 ∧
    tl.stop.is_playing = false ∧
    tl.stop.is_finished = false ∧
    tl.stop.animations = resetSched tl.animations := by
  have h : tl.stop = Timeline.freshWith (resetSched tl.animations) := rfl
  exact ⟨by rw [h], rfl, rfl, rfl, rfl⟩

/-- Linear interpolation at parameter 0 returns the left list (for lists
of equal length, as numpy's componentwise arithmetic requires). -/
theorem zipWith_lerp_zero (a b : List ℚ) (h : a.length = b.length) :
    List.zipWith (fun s e => s + 0 * (e - s)) a b = a := by
  induction a generalizing b with
  | nil => simp
  | cons x xs ih =>
    cases b with
    | nil => simp at h
    | cons y ys =>
      simp only [List.zipWith_cons_cons, List.cons.injEq]
      exact ⟨by ring, ih ys (by simpa using h)⟩

/-- Linear interpolation at parameter 1 returns the right list. -/
theorem zipWith_lerp_one (a b : List ℚ) (h : a.length = b.length) :
    List.zipWith (fun s e => s + 1 * (e - s)) a b = b := by
  induction a generalizing b with
  | nil => cases b with
    | nil => simp
    | cons y ys => simp at h
  | cons x xs ih =>
    cases b with
    | nil => simp at h
    | cons y ys =>
      simp only [List.zipWith_cons_cons, List.cons.injEq]
      exact ⟨by ring, ih ys (by simpa using h)⟩

/-- C4.  For start and end vector states of equal dimension (components
and origins of matching arity), any duration `d > 0` and any easing with
`f(0)=0` and `f(1)=1`: the fresh `VectorAnimation`'s `get_value()` returns
exactly the start components and origin, and after `update(d)` (elapsed
`= d`) it returns exactly the end components and origin. -/
theorem c4_vector_animation_endpoints (s e : Snap) (d : ℚ) (f : ℚ → ℚ)
    (hc : s.components.length = e.components.length)
    (ho : s.origin.length = e.origin.length)
    (hd : 0 < d) (h0 : f 0 = 0) (h1 : f 1 = 1) :
    (VectorAnimation.mk0 s e d f).get_value = (s.components, s.origin) ∧
    ((VectorAnimation.mk0 s e d f).update d).get_value = (e.components, e.origin) := by
  have hdne : d ≠ 0 := ne_of_gt hd
  have hmin0 : min (1 : ℚ) 0 = 0 := min_eq_right zero_le_one
  have ht0 : (VectorAnimation.mk0 s e d f).eased_progress = 0 := by
    simp [VectorAnimation.mk0, VectorAnimation.eased_progress, Anim.mk0,
      Anim.progress, hdne, hmin0, h0]
  have hupd : (VectorAnimation.mk0 s e d f).update d =
      ⟨⟨d, d, true⟩, s, e, f⟩ := by
    simp [VectorAnimation.mk0, VectorAnimation.update, Anim.mk0, Anim.update]
  have ht1 : (⟨⟨d, d, true⟩, s, e, f⟩ : VectorAnimation).eased_progress = 1 := by
    simp [VectorAnimation.eased_progress, Anim.progress, hdne, div_self hdne, h1]
  constructor
  · simp only [VectorAnimation.get_value, ht0]
    exact Prod.ext (zipWith_lerp_zero _ _ hc) (zipWith_lerp_zero _ _ ho)
  · rw [hupd]
    simp only [VectorAnimation.get_value, ht1]
    exact Prod.ext (zipWith_lerp_one _ _ hc) (zipWith_lerp_one _ _ ho)

/-- C4, witness: 2D states, duration 2, linear easing. -/
theorem c4_witness :
    ((⟨[1, 2], [0, 0], defaultColor⟩ : Snap).components.length =
      (⟨[3, 4], [5, 6], defaultColor⟩ : Snap).components.length) ∧
    (0 : ℚ) < 2 ∧
    (VectorAnimation.mk0 ⟨[1, 2], [0, 0], defaultColor⟩
      ⟨[3, 4], [5, 6], defaultColor⟩ 2 (fun t => t)).get_value = ([1, 2], [0, 0]) ∧
    ((VectorAnimation.mk0 ⟨[1, 2], [0, 0], defaultColor⟩
      ⟨[3, 4], [5, 6], defaultColor⟩ 2 (fun t => t)).update 2).get_value =
      ([3, 4], [5, 6]) :=
  ⟨rfl, by norm_num,
   (c4_vector_animation_endpoints ⟨[1, 2], [0, 0], defaultColor⟩
     ⟨[3, 4], [5, 6], defaultColor⟩ 2 (fun t => t) rfl rfl (by norm_num) rfl rfl).1,
   (c4_vector_animation_endpoints ⟨[1, 2], [0, 0], defaultColor⟩
     ⟨[3, 4], [5, 6], defaultColor⟩ 2 (fun t => t) rfl rfl (by norm_num) rfl rfl).2⟩

/-- Mapping over an `Except` success value preserves success. -/
theorem exceptOk_map {α β : Type} (f : α → β) (x : Except String α) :
    exceptOk (x.map f) = exceptOk x := by
  cases x <;> rfl

/-- The constructor succeeds exactly on arity 2 or 3. -/
theorem exceptOk_mkVector (cs : List ℚ) (o : Option (List ℚ)) :
    exceptOk (mkVector cs o) = true ↔ (cs.length = 2 ∨ cs.length = 3) := by
  unfold mkVector
  split <;> simp [exceptOk, *]

/-- C7.  Every binary Vector operation — `add`, `subtract`, `dot`,
`project_onto`, `angle_with` — fails exactly when the operands'
dimensions differ: the guard raises immediately on mismatch (nothing is
coerced), and on matching dimensions no error is raised (for well-formed
operands, whose arity 2 or 3 the constructor guarantees). -/
theorem c7_binary_ops_dimension_guard (v w : Vector) (hv : v.wf) (hw : w.wf) :
    (exceptOk (v.add w) = true ↔ v.dim = w.dim) ∧
    (exceptOk (v.subtract w) = true ↔ v.dim = w.dim) ∧
    (exceptOk (v.dot w) = true ↔ v.dim = w.dim) ∧
    (exceptOk (v.project_onto w) = true ↔ v.dim = w.dim) ∧
    (exceptOk (v.angle_with w) = true ↔ v.dim = w.dim) := by
  by_cases hdim : v.dim = w.dim
  · have hv' : v.components.length = 2 ∨ v.components.length = 3 := hv
    have hw' : w.components.length = 2 ∨ w.components.length = 3 := hw
    have hlen : v.components.length = w.components.length := hdim
    have hmin : min v.components.length w.components.length =
        v.components.length := by
      rw [hlen, min_self]
    refine ⟨?_, ?_, ?_, ?_, ?_⟩
    · simp only [Vector.add, hdim, ne_eq, not_true_eq_false, if_false,
        exceptOk_map, exceptOk_mkVector, List.length_zipWith, hmin, iff_true]
      exact hv'
    · simp only [Vector.subtract, hdim, ne_eq, not_true_eq_false, if_false,
        exceptOk_map, exceptOk_mkVector, List.length_zipWith, hmin, iff_true]
      exact hv'
    · simp [Vector.dot, hdim, exceptOk]
    · rw [Vector.project_onto, if_neg (by simp [hdim])]
      simp only [hdim, iff_true]
      split
      · rw [exceptOk_mkVector]
        simpa [zeros, Vector.dim] using hw'
      · rw [exceptOk_map, exceptOk_mkVector]
        simpa using hw'
    · simp [Vector.angle_with, hdim, exceptOk]
  · refine ⟨?_, ?_, ?_, ?_, ?_⟩ <;>
      simp [Vector.add, Vector.subtract, Vector.dot, Vector.project_onto,
        Vector.angle_with, hdim, exceptOk]

/-- C7, witness on a matching 2D/2D pair and on a mismatched 2D/3D pair. -/
theorem c7_witness :
    (⟨[1, 2], [0, 0], defaultColor, none, none, false⟩ : Vector).wf ∧
    (⟨[3, 4, 5], [0, 0, 0], defaultColor, none, none, false⟩ : Vector).wf ∧
    (exceptOk ((⟨[1, 2], [0, 0], defaultColor, none, none, false⟩ : Vector).add
        ⟨[3, 4, 5], [0, 0, 0], defaultColor, none, none, false⟩) = true ↔
      (⟨[1, 2], [0, 0], defaultColor, none, none, false⟩ : Vector).dim =
        (⟨[3, 4, 5], [0, 0, 0], defaultColor, none, none, false⟩ : Vector).dim) :=
  ⟨by decide, by decide,
   (c7_binary_ops_dimension_guard _ _ (by decide) (by decide)).1⟩

/-- C10.  A directly constructed Vector records no previous state, so
`animate(duration)` takes the `None` branch for every duration: no pending
animation is attached and the vector is returned unchanged. -/
theorem c10_animate_direct_noop (cs : List ℚ) (o : Option (List ℚ))
    (v : Vector) (d : ℚ) (h : mkVector cs o = Except.ok v) :
    v.previousState = none ∧ v.pendingAnimation = none ∧ v.animate d = v := by
  unfold mkVector at h
  by_cases hl : cs.length = 2 ∨ cs.length = 3
  · rw [if_pos hl] at h
    injection h with h2
    subst h2
    exact ⟨rfl, rfl, rfl⟩
  · rw [if_neg hl] at h
    cases h

/-- C10, witness at `Vector(1, 2)` and duration 7. -/
theorem c10_witness :
    mkVector [1, 2] none =
      Except.ok (⟨[1, 2], [0, 0], defaultColor, none, none, false⟩ : Vector) ∧
    (⟨[1, 2], [0, 0], defaultColor, none, none, false⟩ : Vector).animate 7 =
      ⟨[1, 2], [0, 0], defaultColor, none, none, false⟩ :=
  ⟨rfl, (c10_animate_direct_noop [1, 2] none _ 7 rfl).2.2⟩

/-- C8.  For any camera state — any pan, any zoom in [5, 500], any
rotation (represented by its cosine/sine pair on the unit circle) — and
any world point, `screen_to_world(world_to_screen(x, y))` returns exactly
`(x, y)` over exact arithmetic: the translation/scaling inverts because
the zoom is nonzero, and the two rotations compose to the identity by the
Pythagorean identity. -/
theorem c8_camera_roundtrip (cam : Camera2D)
    (hpy : cam.rotc ^ 2 + cam.rots ^ 2 = 1)
    (hz5 : 5 ≤ cam.zoom) (hz500 : cam.zoom ≤ 500) (x y : ℚ) :
    cam.screen_to_world (cam.world_to_screen x y).1 (cam.world_to_screen x y).2 =
      (x, y) := by
  have hz : cam.zoom ≠ 0 := by
    intro h
    rw [h] at hz5
    norm_num at hz5
  unfold Camera2D.world_to_screen Camera2D.screen_to_world
  by_cases hr : cam.rotation = 0
  · simp only [hr, ne_eq, not_true_eq_false, if_false]
    apply Prod.ext
    · field_simp
    · field_simp
      ring
  · simp only [hr, ne_eq, not_false_eq_true, if_true]
    apply Prod.ext
    · field_simp
      linear_combination (x * cam.zoom) * hpy
    · field_simp
      linear_combination (y * cam.zoom) * hpy

/-- C8, witness: the concrete camera `c8Cam` and the point (2, -9). -/
theorem c8_witness :
    c8Cam.rotc ^ 2 + c8Cam.rots ^ 2 = 1 ∧
    (5 : ℚ) ≤ c8Cam.zoom ∧ c8Cam.zoom ≤ 500 ∧
    c8Cam.screen_to_world (c8Cam.world_to_screen 2 (-9)).1
      (c8Cam.world_to_screen 2 (-9)).2 = (2, -9) :=
  ⟨by norm_num [c8Cam], by norm_num [c8Cam], by norm_num [c8Cam],
   c8_camera_roundtrip c8Cam (by norm_num [c8Cam]) (by norm_num [c8Cam])
     (by norm_num [c8Cam]) 2 (-9)⟩

/-- C9, counterexample.  `Vector.__eq__` is numpy `allclose`, which is not
transitive: with `c9w = (0,0)` already in the scene, adding
`c9u = (1e-8, 0)` is a no-op (`c9u` is allclose to `c9w`), so the scene
still holds only `c9w`; then adding `c9v = (2e-8, 0)` — a distinct object
of equal dimension whose components are approximately equal to `c9u`'s —
is *not* a no-op: `c9v` is not allclose to `c9w`, so it is appended.  The
claim's universally quantified no-op therefore fails for this scene. -/
theorem c9_counterexample :
    c9u ≠ c9v ∧ c9u.dim = c9v.dim ∧ vecEq c9u c9v = true ∧
    (sceneAdd (sceneAdd [c9w] c9u).1 c9v).1 ≠ (sceneAdd [c9w] c9u).1 := by
  have ha : |(1 : ℚ)/50000000| = 1/50000000 := abs_of_nonneg (by norm_num)
  have hb : |(1 : ℚ)/100000000| = 1/100000000 := abs_of_nonneg (by norm_num)
  norm_num [c9w, c9u, c9v, sceneAdd, sceneContains, vecEq, npIsClose, Vector.dim,
    defaultColor, Vector.mk.injEq, ha, hb]

/-- C9, amended.  Scene.add deduplicates by value: provided `s.add(u)`
actually appends `u` (no object already in the scene is `allclose` to it —
in particular for a fresh scene), a subsequent `s.add(v)` with `v`
component-wise `allclose` to `u` (origins, colors and object identity
irrelevant) is a no-op: the object list is unchanged and `v` is returned
with its scene back-pointer still unset. -/
theorem c9_amended_dedup_by_value (objs : List Vector) (u v : Vector)
    (hu : sceneContains objs u = false) (huv : vecEq u v = true) :
    (sceneAdd (sceneAdd objs u).1 v).1 = (sceneAdd objs u).1 ∧
    (sceneAdd (sceneAdd objs u).1 v).2 = v := by
  have hadd : sceneAdd objs u =
      (objs ++ [{ u with sceneAttached := true }],
        { u with sceneAttached := true }) := by
    rw [sceneAdd, if_neg]
    simp [hu]
  have hcontains :
      sceneContains (objs ++ [{ u with sceneAttached := true }]) v = true := by
    rw [sceneContains, List.any_append]
    have : vecEq { u with sceneAttached := true } v = true := huv
    simp [List.any, this]
  rw [hadd]
  constructor <;> simp [sceneAdd, hcontains]

/-- C9, witness: fresh scene, then `c9u` followed by the allclose `c9v`. -/
theorem c9_witness :
    sceneContains [] c9u = false ∧ vecEq c9u c9v = true ∧
    (sceneAdd (sceneAdd [] c9u).1 c9v).1 = (sceneAdd [] c9u).1 ∧
    (sceneAdd (sceneAdd [] c9u).1 c9v).2 = c9v :=
  ⟨rfl,
   by
     have ha : |(1 : ℚ)/100000000| = 1/100000000 := abs_of_nonneg (by norm_num)
     norm_num [c9u, c9v, vecEq, npIsClose, ha],
   (c9_amended_dedup_by_value [] c9u c9v rfl
     (by
       have ha : |(1 : ℚ)/100000000| = 1/100000000 := abs_of_nonneg (by norm_num)
       norm_num [c9u, c9v, vecEq, npIsClose, ha])).1,
   (c9_amended_dedup_by_value [] c9u c9v rfl
     (by
       have ha : |(1 : ℚ)/100000000| = 1/100000000 := abs_of_nonneg (by norm_num)
       norm_num [c9u, c9v, vecEq, npIsClose, ha])).2⟩


/-- Store entry updates preserve the list length. -/
theorem storeModify_length (st : List Anim) (j : Nat) (f : Anim → Anim) :
    (storeModify st j f).length = st.length := by
  induction st generalizing j with
  | nil => rfl
  | cons a rest ih =>
    cases j with
    | zero => rfl
    | succ n => simp [storeModify, ih]

theorem storeGet_storeModify_ne (st : List Anim) (i j : Nat) (f : Anim → Anim)
    (h : i ≠ j) : storeGet (storeModify st j f) i = storeGet st i := by
  induction st generalizing i j with
  | nil => rfl
  | cons a rest ih =>
    cases j with
    | zero =>
      cases i with
      | zero => exact absurd rfl h
      | succ n => simp [storeGet, storeModify, List.getD]
    | succ m =>
      cases i with
      | zero => rfl
      | succ n =>
        simp only [storeGet, storeModify, List.getD_cons_succ] at *
        exact ih n m (fun hnm => h (by rw [hnm]))

theorem storeGet_storeModify_self (st : List Anim) (i : Nat) (f : Anim → Anim)
    (h : i < st.length) : storeGet (storeModify st i f) i = f (storeGet st i) := by
  induction st generalizing i with
  | nil => simp at h
  | cons a rest ih =>
    cases i with
    | zero => simp [storeGet, storeModify]
    | succ n =>
      simp only [storeGet, storeModify, List.getD_cons_succ] at *
      exact ih n (by simpa using h)

theorem tlInnerFold_preserve (ids : List Nat) (t ct dt : ℚ) (st : List Anim)
    (j : Nat) (h : j ∉ ids) :
    storeGet (ids.foldl (fun st i =>
      if t ≤ ct ∧ (storeGet st i).finished = false
      then storeModify st i (fun a => a.update dt) else st) st) j
      = storeGet st j := by
  induction ids generalizing st with
  | nil => rfl
  | cons i rest ih =>
    have hji : j ≠ i := fun he => h (he ▸ List.mem_cons_self i rest)
    have hrest : j ∉ rest := fun hm => h (List.mem_cons_of_mem _ hm)
    simp only [List.foldl_cons]
    rw [ih _ hrest]
    split
    · exact storeGet_storeModify_ne st j i _ hji
    · rfl

theorem tlAdvanceStore_preserve (buckets : List (ℚ × List Nat)) (ct dt : ℚ)
    (st : List Anim) (j : Nat) (h : ∀ p ∈ buckets, j ∉ p.2) :
    storeGet (tlAdvanceStore buckets ct dt st) j = storeGet st j := by
  induction buckets generalizing st with
  | nil => rfl
  | cons p rest ih =>
    simp only [tlAdvanceStore, List.foldl_cons] at *
    rw [ih _ (fun q hq => h q (List.mem_cons_of_mem _ hq))]
    exact tlInnerFold_preserve p.2 p.1 ct dt st j (h p (List.mem_cons_self p rest))

theorem tlInnerFold_length (ids : List Nat) (t ct dt : ℚ) (st : List Anim) :
    (ids.foldl (fun st i =>
      if t ≤ ct ∧ (storeGet st i).finished = false
      then storeModify st i (fun a => a.update dt) else st) st).length
      = st.length := by
  induction ids generalizing st with
  | nil => rfl
  | cons i rest ih =>
    simp only [List.foldl_cons]
    rw [ih]
    split
    · exact storeModify_length st i _
    · rfl

theorem tlAdvanceStore_length (buckets : List (ℚ × List Nat)) (ct dt : ℚ)
    (st : List Anim) :
    (tlAdvanceStore buckets ct dt st).length = st.length := by
  induction buckets generalizing st with
  | nil => rfl
  | cons p rest ih =>
    simp only [tlAdvanceStore, List.foldl_cons] at *
    rw [ih, tlInnerFold_length]

theorem sceneTimelineUpdate_props (s : SceneSt) (dt : ℚ) (j : Nat)
    (h : ∀ p ∈ s.tlBuckets, j ∉ p.2) :
    storeGet (sceneTimelineUpdate s dt).store j = storeGet s.store j ∧
    (sceneTimelineUpdate s dt).store.length = s.store.length ∧
    (sceneTimelineUpdate s dt).live = s.live := by
  unfold sceneTimelineUpdate
  split
  · exact ⟨rfl, rfl, rfl⟩
  · dsimp only
    split
    · exact ⟨tlAdvanceStore_preserve _ _ _ _ _ h, tlAdvanceStore_length _ _ _ _, rfl⟩
    · exact ⟨tlAdvanceStore_preserve _ _ _ _ _ h, tlAdvanceStore_length _ _ _ _, rfl⟩

theorem liveFold_fst (l : List Nat) (st : List Anim) (fin : List Nat) (dt : ℚ) :
    (l.foldl (fun acc i =>
      let st' := storeModify acc.1 i (fun a => a.update dt)
      (st', if (storeGet st' i).finished then acc.2 ++ [i] else acc.2))
      (st, fin)).1 =
    l.foldl (fun st i => storeModify st i (fun a => a.update dt)) st := by
  induction l generalizing st fin with
  | nil => rfl
  | cons i rest ih =>
    simp only [List.foldl_cons]
    exact ih _ _

theorem plainFold_preserve (l : List Nat) (st : List Anim) (dt : ℚ) (j : Nat)
    (h : j ∉ l) :
    storeGet (l.foldl (fun st i => storeModify st i (fun a => a.update dt)) st) j
      = storeGet st j := by
  induction l generalizing st with
  | nil => rfl
  | cons i rest ih =>
    have hji : j ≠ i := fun he => h (he ▸ List.mem_cons_self i rest)
    simp only [List.foldl_cons]
    rw [ih _ (fun hm => h (List.mem_cons_of_mem _ hm))]
    exact storeGet_storeModify_ne st j i _ hji

theorem plainFold_getD (l : List Nat) (st : List Anim) (dt : ℚ) (j : Nat)
    (hc : l.count j = 1) (hlen : j < st.length) :
    storeGet (l.foldl (fun st i => storeModify st i (fun a => a.update dt)) st) j
      = (storeGet st j).update dt := by
  induction l generalizing st with
  | nil => simp at hc
  | cons i rest ih =>
    by_cases hij : i = j
    · subst hij
      have hnot : i ∉ rest := by
        rw [List.count_cons_self] at hc
        exact List.count_eq_zero.mp (by omega)
      simp only [List.foldl_cons]
      rw [plainFold_preserve rest _ dt i hnot]
      exact storeGet_storeModify_self st i _ hlen
    · have hc' : rest.count j = 1 := by
        rw [List.count_cons] at hc
        simpa [hij] using hc
      simp only [List.foldl_cons]
      rw [ih (storeModify st i _) hc' (by rw [storeModify_length]; exact hlen)]
      rw [storeGet_storeModify_ne st j i _ (fun he => hij he.symm)]

/-- C2, counterexample.  An animation that is both scheduled at time 0 on
the playing Timeline and present in the Scene's live list is advanced
twice in a single `Scene._update` tick — once by `Timeline.update` and
once by the live-list loop — so with `dt = 1` its elapsed time grows to
2, not to the claimed `min(duration, elapsed + dt) = 1`. -/
theorem c2_counterexample :
    (storeGet (sceneUpdate c2Scene 1).store 0).elapsed = 2 ∧
    (storeGet (sceneUpdate c2Scene 1).store 0).elapsed ≠
      min (storeGet c2Scene.store 0).duration
        ((storeGet c2Scene.store 0).elapsed + 1) := by
  norm_num [c2Scene, sceneUpdate, sceneTimelineUpdate, tlAdvanceStore, storeModify,
    storeGet, sceneTlDuration, Anim.update, List.getD, min_def]

/-- C2, amended.  Within one non-paused `Scene._update` tick, a live,
not-yet-finished animation that occurs once in the live list and is not
scheduled in any Timeline bucket is advanced with the identical `dt`
exactly once, so its elapsed time becomes exactly
`min(duration, elapsed + dt)`; an animation that is additionally
scheduled (eligible and unfinished) on the playing Timeline receives the
same `dt` a second time from `Timeline.update` (see the counterexample). -/
theorem c2_amended_single_advance (s : SceneSt) (dt : ℚ) (j : Nat)
    (hp : s.paused = false)
    (hlen : j < s.store.length)
    (hcount : s.live.count j = 1)
    (hfin : (storeGet s.store j).finished = false)
    (htl : ∀ p ∈ s.tlBuckets, j ∉ p.2) :
    (storeGet (sceneUpdate s dt).store j).elapsed =
      min (storeGet s.store j).duration ((storeGet s.store j).elapsed + dt) := by
  obtain ⟨hget, hlen2, hlive⟩ := sceneTimelineUpdate_props s dt j htl
  unfold sceneUpdate
  rw [if_neg (by simp [hp])]
  dsimp only
  rw [liveFold_fst, hlive,
    plainFold_getD s.live _ dt j hcount (by rw [hlen2]; exact hlen), hget]
  rw [Anim.update, if_neg (by simp [hfin])]
  dsimp only
  rw [apply_ite (fun a : Anim => a.elapsed)]
  rw [min_def]

/-- C2, witness: the scene `c2SceneW`, whose single live animation is not
on the Timeline, advanced by `dt = 1`. -/
theorem c2_witness :
    c2SceneW.paused = false ∧
    0 < c2SceneW.store.length ∧
    c2SceneW.live.count 0 = 1 ∧
    (storeGet c2SceneW.store 0).finished = false ∧
    (storeGet (sceneUpdate c2SceneW 1).store 0).elapsed =
      min (storeGet c2SceneW.store 0).duration
        ((storeGet c2SceneW.store 0).elapsed + 1) :=
  ⟨rfl, by norm_num [c2SceneW], by decide, rfl,
   c2_amended_single_advance c2SceneW 1 0 rfl (by norm_num [c2SceneW]) (by decide)
     rfl (by simp [c2SceneW])⟩

end LinalgViz

